import Mathlib

/-!
Shallow embedding of the obsidian-confluence-flow plugin
(src/sync-state.ts, src/sync-service.ts, src/confluence-api.ts, src/html-to-md.ts).

Strings are modelled as Lean `String`/`List Char`; JS regular-expression steps are
implemented as executable scanning functions that realise the specific patterns used
by the source, with deterministic simplifications proved or argued where the regex
engine's backtracking cannot change the outcome on the pattern in question.
Timestamps and version numbers are `Nat`.
-/

set_option maxRecDepth 100000

/- ===================== sync-state.ts ===================== -/

/-- Per-page sync record (interface PageSyncState, sync-state.ts lines 8-17). -/
structure PageSyncState where
  pageId : String
  localPath : String
  version : Nat
  lastUpdated : Nat
deriving DecidableEq, Repr

/-- Plugin data (interface PluginData, sync-state.ts lines 22-27).
The `syncState` record map is modelled as an association list (first hit wins).
The `syncedRootIds` field is Modelled from the spec: the snapshot of
sync-state.ts has no synced-root set, but its caller sync-service.ts requires
`getSyncedRootIds`/`addSyncedRootIds` on the manager and the spec's persisted
state file has `syncedRootIds: array<string>`. -/
structure PluginData where
  syncState : List (String × PageSyncState)
  lastGlobalSyncTime : Nat
  syncedRootIds : List String
deriving DecidableEq, Repr

/-- getPageState (sync-state.ts lines 62-64): lookup in the record map. -/
def getPageState (d : PluginData) (pageId : String) : Option PageSyncState :=
  (d.syncState.find? (fun e => e.1 = pageId)).map (fun e => e.2)

/-- needsSync (sync-state.ts lines 113-119): true for a new page, else compare
the remote version with the stored record's version. -/
def needsSync (d : PluginData) (pageId : String) (remoteVersion : Nat) : Bool :=
  match getPageState d pageId with
  | none => true
  | some state => decide (remoteVersion > state.version)

/-- getSyncedRootIds. Modelled from the spec: `listSyncedRoots() -> set`; the
method is called by sync-service.ts line 87 but missing from the sync-state.ts
snapshot. -/
def getSyncedRootIds (d : PluginData) : List String :=
  d.syncedRootIds

/-- clearAllStates (sync-state.ts lines 131-135). The snapshot resets the record
map and the watermark; the reset of the synced-root set is Modelled from the
spec: "clearAll(): resets all records, synced-root set, and watermark to empty". -/
def clearAllStates (_d : PluginData) : PluginData :=
  { syncState := [], lastGlobalSyncTime := 0, syncedRootIds := [] }

/-- Applies a function to every timestamp held by the store (the per-record
`lastUpdated` fields and the global watermark).  Statement-side gadget used to
express that `needsSync` never depends on any timestamp. -/
def mapTimestamps (f : Nat → Nat) (d : PluginData) : PluginData :=
  { syncState := d.syncState.map (fun e => (e.1, { e.2 with lastUpdated := f e.2.lastUpdated })),
    lastGlobalSyncTime := f d.lastGlobalSyncTime,
    syncedRootIds := d.syncedRootIds }

/- ===================== sanitizeFileName (sync-service.ts lines 597-618) ===================== -/

/-- The whitespace class of the JS regexes `\s` (ASCII part; the source strings
involved are ASCII or CJK text without exotic Unicode spaces). -/
def isJsSpace (c : Char) : Bool :=
  c = ' ' ∨ c = '\t' ∨ c = '\n' ∨ c = '\r' ∨ c = '\x0b' ∨ c = '\x0c'

/-- The Windows-reserved characters replaced by sanitizeFileName:  \ / : * ? " < > | -/
def isIllegalFileChar (c : Char) : Bool :=
  c = '\\' ∨ c = '/' ∨ c = ':' ∨ c = '*' ∨ c = '?' ∨ c = '"' ∨ c = '<' ∨ c = '>' ∨ c = '|'

/-- One character of `replace(/[\\/:*?"<>|]/g, "_")`. -/
def replaceIllegalChar (c : Char) : Char :=
  if isIllegalFileChar c then '_' else c

/-- `replace(/^\s+/, "")`: drop the leading whitespace run. -/
def dropLeadingSpaces (l : List Char) : List Char :=
  l.dropWhile isJsSpace

/-- `replace(/\s+$/, "")`: drop the trailing whitespace run. -/
def dropTrailingSpaces (l : List Char) : List Char :=
  (l.reverse.dropWhile isJsSpace).reverse

/-- Helper of `collapseSpaces`; the flag records whether the previous character
was part of a whitespace run already emitted as a single space. -/
def collapseSpacesAux : Bool → List Char → List Char
  | _, [] => []
  | inRun, c :: rest =>
    if isJsSpace c then
      if inRun then collapseSpacesAux true rest
      else ' ' :: collapseSpacesAux true rest
    else c :: collapseSpacesAux false rest

/-- `replace(/\s+/g, " ")`: collapse each whitespace run to a single space. -/
def collapseSpaces (l : List Char) : List Char :=
  collapseSpacesAux false l

/-- JS `String.prototype.trim()` on a character list. -/
def jsTrim (l : List Char) : List Char :=
  dropTrailingSpaces (dropLeadingSpaces l)

/-- sanitizeFileName (sync-service.ts lines 597-618): replace reserved characters
with `_`, trim both ends, collapse whitespace runs, truncate to 200 characters,
substitute "untitled" when empty after trimming, and trim the returned value. -/
def sanitizeFileName (name : String) : String :=
  let safe := collapseSpaces (dropTrailingSpaces (dropLeadingSpaces
                (name.data.map replaceIllegalChar)))
  let safe := safe.take 200
  if (jsTrim safe).isEmpty then "untitled" else String.mk (jsTrim safe)

/- ===================== confluence-api.ts data model ===================== -/

/-- interface ConfluenceAncestor (confluence-api.ts lines 19-24). -/
structure ConfluenceAncestor where
  id : String
  type : String
  status : String
  title : String
deriving DecidableEq, Repr

/-- interface ConfluencePage (confluence-api.ts lines 39-53); the body is the
`body.storage.value` string and the version its `version.number`. -/
structure ConfluencePage where
  id : String
  title : String
  version : Nat
  ancestors : List ConfluenceAncestor
  body : String
deriving DecidableEq, Repr

/-- interface CQLSearchResult (confluence-api.ts lines 58-64); `totalSize`
models the source field `_totalSize`. -/
structure CQLSearchResult where
  results : List ConfluencePage
  size : Nat
  start : Nat
  limit : Nat
  totalSize : Nat
deriving Repr

/- ============ fetchAllPagesByRootIds (confluence-api.ts lines 353-384) ============ -/

/-- One turn of the `while (hasMore)` pagination loop of fetchAllPagesByRootIds,
with explicit fuel: `none` means the fuel ran out while the loop still wanted to
continue.  `fetch start` stands for `fetchPagesByRootIds(rootIds, lastSyncTime,
start, 25)`, the response of the remote listing endpoint at offset `start`. -/
def fetchAllLoop (fetch : Nat → CQLSearchResult) :
    Nat → Nat → List ConfluencePage → Option (List ConfluencePage)
  | 0, _, _ => none
  | fuel + 1, start, acc =>
    let result := fetch start
    let allPages := acc ++ result.results
    let hasMore := (result.size == 25) && (allPages.length < result.totalSize)
    if allPages.length ≥ 1000 then some allPages
    else if hasMore then fetchAllLoop fetch fuel (start + 25) allPages
    else some allPages

/-- fetchAllPagesByRootIds (confluence-api.ts lines 353-384): run the pagination
loop from offset 0 with an empty accumulator.  41 turns of fuel are enough for
every well-formed response sequence (each continuing turn adds 25 pages and the
loop breaks at 1000 pages, i.e. after at most 40 turns). -/
def fetchAllPagesByRootIds (fetch : Nat → CQLSearchResult) : Option (List ConfluencePage) :=
  fetchAllLoop fetch 41 0 []

/-- The concatenation of the first `n` responses of the listing endpoint, fetched
at offsets 0, 25, 50, ... as the loop does. -/
def accumPages (fetch : Nat → CQLSearchResult) (n : Nat) : List ConfluencePage :=
  ((List.range n).map (fun i => (fetch (25 * i)).results)).flatten

/-- The loop's stop condition after processing response `i`: the page reported
fewer results than the page size, or the accumulated count reached the reported
total, or the 1000-document hard ceiling was reached. -/
def stopCond (fetch : Nat → CQLSearchResult) (i : Nat) : Bool :=
  ((fetch (25 * i)).size != 25) ||
  ((accumPages fetch (i + 1)).length ≥ (fetch (25 * i)).totalSize) ||
  ((accumPages fetch (i + 1)).length ≥ 1000)

/- ============ path resolution (sync-service.ts lines 448-487) ============ -/

/-- interface PagePathInfo (sync-service.ts lines 26-31). -/
structure PagePathInfo where
  pageId : String
  title : String
  folderPath : String
  filePath : String
deriving DecidableEq, Repr

/-- Obsidian's normalizePath, an external collaborator of the core (spec §6).
Modelled as the identity: the paths the resolver builds are already relative,
slash-separated, and free of the characters normalizePath rewrites, because
every segment went through sanitizeFileName. -/
def normalizePath (p : String) : String := p

/-- The "parent page ids" scan of calculatePagePaths (lines 452-458): every
identifier appearing in some batch page's ancestor chain. -/
def parentPageIdsOf (pages : List ConfluencePage) : List String :=
  (pages.map (fun p => p.ancestors.map (fun a => a.id))).flatten

/-- The per-page body of the loop of calculatePagePaths (lines 460-485):
folder and file path for one page given the scanned parent-id set. -/
def pagePathInfo (syncFolder : String) (rootIds : List String)
    (parentPageIds : List String) (page : ConfluencePage) : PagePathInfo :=
  let pathSegments :=
    (page.ancestors.filter (fun a => !(rootIds.contains a.id))).map
      (fun a => sanitizeFileName a.title)
  let basePath :=
    if pathSegments.length > 0 then
      normalizePath (syncFolder ++ "/" ++ String.intercalate "/" pathSegments)
    else normalizePath syncFolder
  let safePageTitle := sanitizeFileName page.title
  if parentPageIds.contains page.id then
    let folderPath := normalizePath (basePath ++ "/" ++ safePageTitle)
    { pageId := page.id, title := page.title, folderPath := folderPath,
      filePath := normalizePath (folderPath ++ "/" ++ safePageTitle ++ ".md") }
  else
    { pageId := page.id, title := page.title, folderPath := basePath,
      filePath := normalizePath (basePath ++ "/" ++ safePageTitle ++ ".md") }

/-- calculatePagePaths (sync-service.ts lines 448-487).  The resulting
`Map<string, PagePathInfo>` is modelled as the association list produced in
batch order; `rootIds` is the parsed configured root-id set. -/
def calculatePagePaths (syncFolder : String) (rootIds : List String)
    (pages : List ConfluencePage) : List (String × PagePathInfo) :=
  pages.map (fun p => (p.id, pagePathInfo syncFolder rootIds (parentPageIdsOf pages) p))

/-- The base path as the claim words it: the configured sync folder joined with
the sanitized titles of the page's ancestors, excluding every ancestor whose id
is a configured root id.  Stated from the claim, to be compared with
`pagePathInfo`. -/
def claimBasePath (syncFolder : String) (rootIds : List String)
    (page : ConfluencePage) : String :=
  let segs := (page.ancestors.filter (fun a => !(rootIds.contains a.id))).map
    (fun a => sanitizeFileName a.title)
  if segs.isEmpty then syncFolder else syncFolder ++ "/" ++ String.intercalate "/" segs

/- ============ attachments (sync-service.ts lines 524-575) ============ -/

/-- The outcome oracle for one attachment inside the download loop of
syncAttachments: what `downloadAttachment` and the binary write do for it. -/
structure AttachmentRun where
  title : String
  download : Except String Unit
  write : Except String Unit
deriving Repr

/-- Whether an Except-modelled step succeeded. -/
def exceptOk : Except String α → Bool
  | .ok _ => true
  | .error _ => false

/-- An attachment that is both downloaded and written successfully. -/
def attachmentSucceeds (a : AttachmentRun) : Bool :=
  exceptOk a.download && exceptOk a.write

/-- syncAttachments (sync-service.ts lines 524-575): `listing` is the outcome of
`getAttachments` (a throw, or the attachment list with each one's per-attachment
step outcomes).  The outer try/catch returns 0 when listing throws; the inner
try/catch skips a failed attachment and keeps counting the rest; the count is
incremented only after a successful download and write. -/
def syncAttachments (listing : Except String (List AttachmentRun)) : Nat :=
  match listing with
  | .error _ => 0
  | .ok attachments =>
    if attachments.length = 0 then 0
    else
      attachments.foldl
        (fun downloadedCount a =>
          match a.download with
          | .error _ => downloadedCount
          | .ok _ =>
            match a.write with
            | .error _ => downloadedCount
            | .ok _ => downloadedCount + 1)
        0

/- ============ batch pass (sync-service.ts lines 66-407) ============ -/

/-- interface SyncResult (sync-service.ts lines 14-21). -/
structure SyncResult where
  success : Bool
  pagesCreated : Nat
  pagesUpdated : Nat
  pagesSkipped : Nat
  attachmentsDownloaded : Nat
  errors : List String
deriving DecidableEq, Repr

/-- The result record as initialised at the top of pullFromConfluence (lines 67-74). -/
def emptySyncResult : SyncResult :=
  { success := false, pagesCreated := 0, pagesUpdated := 0, pagesSkipped := 0,
    attachmentsDownloaded := 0, errors := [] }

/-- The outcome oracle for one page inside syncOnePage (lines 138-373): whether
its path was resolved, what needsSync answered, what createFolderStructure did,
the attachment-count hint (`children?.attachment?.size ?? -1`), the attachment
listing outcome, and what the transform-and-write step did (`ok isNewFile`, or a
thrown error message). -/
structure PageBehavior where
  hasPath : Bool
  needs : Bool
  folder : Except String Unit
  attachSize : Int
  listing : Except String (List AttachmentRun)
  write : Except String Bool

/-- The error message pushed by the catch of syncOnePage (line 366). -/
def pageFailMsg (page : ConfluencePage) (msg : String) : String :=
  "同步页面 " ++ page.id ++ " (" ++ page.title ++ ") 失败: " ++ msg

/-- The error message pushed when the page's path is missing (line 142). -/
def pathFailMsg (page : ConfluencePage) : String :=
  "页面 " ++ page.id ++ " 路径计算失败"

/-- syncOnePage (sync-service.ts lines 138-373): missing path appends an error;
a false needsSync counts a skip; attachments are skipped when the hint is
exactly 0; a throw from folder creation or from transform/write is caught and
appended to the error list; a successful write counts a create or an update. -/
def syncOnePage (r : SyncResult) (page : ConfluencePage) (b : PageBehavior) : SyncResult :=
  if b.hasPath = false then { r with errors := r.errors ++ [pathFailMsg page] }
  else if b.needs = false then { r with pagesSkipped := r.pagesSkipped + 1 }
  else
    match b.folder with
    | .error e => { r with errors := r.errors ++ [pageFailMsg page e] }
    | .ok _ =>
      let attachmentCount := if b.attachSize = 0 then 0 else syncAttachments b.listing
      let r2 := { r with attachmentsDownloaded := r.attachmentsDownloaded + attachmentCount }
      match b.write with
      | .error e => { r2 with errors := r2.errors ++ [pageFailMsg page e] }
      | .ok true => { r2 with pagesCreated := r2.pagesCreated + 1 }
      | .ok false => { r2 with pagesUpdated := r2.pagesUpdated + 1 }

/-- The Syncing and Done phases of pullFromConfluence: the worker pool drains the
page queue, running syncOnePage once per page (lines 375-384; the bounded workers
process each queued page exactly once, modelled as the left fold in queue order),
then `result.success = result.errors.length === 0` (line 399). -/
def pullBatchPages (pages : List (ConfluencePage × PageBehavior)) : SyncResult :=
  let r := pages.foldl (fun r pb => syncOnePage r pb.1 pb.2) emptySyncResult
  { r with success := r.errors.length == 0 }

/-- The error this page contributes to the pass's error list, if any (claim-side
classifier for the theorems about pullBatchPages). -/
def pageErrorOf (page : ConfluencePage) (b : PageBehavior) : Option String :=
  if b.hasPath = false then some (pathFailMsg page)
  else if b.needs = false then none
  else
    match b.folder with
    | .error e => some (pageFailMsg page e)
    | .ok _ =>
      match b.write with
      | .error e => some (pageFailMsg page e)
      | .ok _ => none

/-- Classifier: this page ends in a successful create. -/
def pageCreated (b : PageBehavior) : Bool :=
  b.hasPath && b.needs && exceptOk b.folder &&
    (match b.write with | .ok true => true | _ => false)

/-- Classifier: this page ends in a successful update. -/
def pageUpdated (b : PageBehavior) : Bool :=
  b.hasPath && b.needs && exceptOk b.folder &&
    (match b.write with | .ok false => true | _ => false)

/-- Classifier: this page is skipped by the needsSync check. -/
def pageSkipped (b : PageBehavior) : Bool :=
  b.hasPath && !b.needs

/- ============ html-to-md.ts convert (lines 208-216) ============ -/

/-- The state-machine realisation of the blunt fallback `html.replace(/<[^>]*>/g, "")`:
the first argument buffers (reversed) the characters of a potential tag opened by
an unmatched `<`; a buffered run that never meets `>` is emitted verbatim, since
the regex cannot match anywhere inside it. -/
def stripTagsAux : Option (List Char) → List Char → List Char
  | none, [] => []
  | some buf, [] => buf.reverse
  | none, c :: rest =>
    if c = '<' then stripTagsAux (some [c]) rest
    else c :: stripTagsAux none rest
  | some buf, c :: rest =>
    if c = '>' then stripTagsAux none rest
    else stripTagsAux (some (c :: buf)) rest

/-- `html.replace(/<[^>]*>/g, "")` (html-to-md.ts line 214). -/
def stripTags (html : String) : String :=
  String.mk (stripTagsAux none html.data)

/-- HtmlToMarkdownConverter.convert (html-to-md.ts lines 208-216).  The Turndown
structural converter is an external library, modelled as an arbitrary
possibly-throwing function; the catch returns the input with all markup tags
stripped by the blunt pattern. -/
def convert (turndown : String → Except String String) (html : String) : String :=
  match turndown html with
  | .ok md => md
  | .error _ => stripTags html

/- ============ structured-macro pre-scan (sync-service.ts lines 242-311 / 708-777) ============ -/

/-- Case-insensitive character comparison (the `/i` regex flag; the literals
involved are ASCII). -/
def charEqCI (a b : Char) : Bool := a.toLower = b.toLower

/-- Case-insensitive "text starts with pattern" used for regex literals. -/
def startsWithCI : List Char → List Char → Bool
  | [], _ => true
  | _ :: _, [] => false
  | p :: ps, c :: cs => charEqCI p c && startsWithCI ps cs

/-- A character of the regex class `['"]`. -/
def isQuote (c : Char) : Bool := c = '\'' ∨ c = '"'

/-- The regex piece `[^>]*>`: consume greedily up to and including the first
`>`; none when no `>` remains. -/
def skipPastGt : List Char → Option (List Char)
  | [] => none
  | c :: rest => if c = '>' then some rest else skipPastGt rest

/-- The regex piece `(.*?)(?:\]\]>)?<\/`: lazily grow the capture until the
text ahead is `]]></` or `</`; `.` does not cross a newline, so a newline before
a close makes the match fail.  The accumulator holds the reversed capture. -/
def lazyCaptureToClose (acc : List Char) : List Char → Option (List Char)
  | [] => none
  | c :: rest =>
    if startsWithCI "]]></".data (c :: rest) || startsWithCI "</".data (c :: rest) then
      some acc.reverse
    else if c = '\n' then none
    else lazyCaptureToClose (c :: acc) rest

/-- The pattern `(?:ac:)?name=['"]P['"][^>]*>(?:<!\[CDATA\[)?(.*?)(?:\]\]>)?<\/`
anchored at the head of the text, returning capture group 1.  The two optional
pieces are consumed greedily when present, which agrees with the backtracking
engine: skipping a present `ac:` leaves `name=` unmatched, and a capture
reachable without consuming a present `<![CDATA[` is also reachable with it. -/
def paramMatchCore (param : List Char) (l : List Char) : Option (List Char) :=
  let l := if startsWithCI "ac:".data l then l.drop 3 else l
  if startsWithCI "name=".data l then
    let l := l.drop 5
    match l with
    | [] => none
    | q :: l2 =>
      if isQuote q && startsWithCI param l2 then
        match l2.drop param.length with
        | [] => none
        | q2 :: l4 =>
          if isQuote q2 then
            match skipPastGt l4 with
            | none => none
            | some l5 =>
              let l6 := if startsWithCI "<![CDATA[".data l5 then l5.drop 9 else l5
              lazyCaptureToClose [] l6
          else none
      else none
  else none

/-- Leftmost-first search for the parameter pattern: the regexes
`/(?:ac:)?name=['"]language['"]...<\//i` (lines 288, 754), and the analogous
`key` (lines 249, 715) and `jql` (lines 253, 719) ones, via
`innerContent.match(...)`. -/
def findParamMatch (param : List Char) : List Char → Option (List Char)
  | [] => none
  | c :: rest =>
    match paramMatchCore param (c :: rest) with
    | some cap => some cap
    | none => findParamMatch param rest

/-- The closing alternatives `<\/(?:ac:)?plain-text-body>` of the body regex. -/
def bodyCloseAt (l : List Char) : Bool :=
  startsWithCI "</ac:plain-text-body>".data l || startsWithCI "</plain-text-body>".data l

/-- The piece `([\s\S]*?)` before the body close: lazily grow the capture (any
character, newlines included) until the close matches. -/
def lazyCaptureBody (acc : List Char) : List Char → Option (List Char)
  | [] => none
  | c :: rest =>
    if bodyCloseAt (c :: rest) then some acc.reverse
    else lazyCaptureBody (c :: acc) rest

/-- The pattern `<(?:ac:)?plain-text-body[^>]*>([\s\S]*?)<\/(?:ac:)?plain-text-body>`
anchored at the head of the text, returning capture group 1. -/
def plainTextBodyCore : List Char → Option (List Char)
  | [] => none
  | c :: rest =>
    if c = '<' then
      let l := if startsWithCI "ac:".data rest then rest.drop 3 else rest
      if startsWithCI "plain-text-body".data l then
        match skipPastGt (l.drop 15) with
        | none => none
        | some l2 => lazyCaptureBody [] l2
      else none
    else none

/-- Leftmost-first search for the plain-text-body pattern (lines 291, 757). -/
def findPlainTextBody : List Char → Option (List Char)
  | [] => none
  | c :: rest =>
    match plainTextBodyCore (c :: rest) with
    | some cap => some cap
    | none => findPlainTextBody rest

/-- Scan for the lazy CDATA close `\]\]>`, splitting into the text before it and
the text after it. -/
def cdataScan (acc : List Char) : List Char → Option (List Char × List Char)
  | [] => none
  | c :: rest =>
    if startsWithCI "]]>".data (c :: rest) then some (acc.reverse, rest.drop 2)
    else cdataScan (c :: acc) rest

/-- One fuelled pass of the global replace `replace(/<!\[CDATA\[([\s\S]*?)\]\]>/gi, "$1")`
(lines 294, 760): each matched CDATA wrapper is replaced by its inner text and
scanning resumes after it.  The fuel only makes the recursion structural; a call
with fuel ≥ length of the text never runs out. -/
def cdataStripFuel : Nat → List Char → List Char
  | 0, l => l
  | _, [] => []
  | fuel + 1, c :: rest =>
    if startsWithCI "<![CDATA[".data (c :: rest) then
      match cdataScan [] (rest.drop 8) with
      | some (inner, after) => inner ++ cdataStripFuel fuel after
      | none => c :: cdataStripFuel fuel rest
    else c :: cdataStripFuel fuel rest

/-- `code.replace(/<!\[CDATA\[([\s\S]*?)\]\]>/gi, "$1")` on a character list. -/
def cdataStripL (l : List Char) : List Char :=
  cdataStripFuel l.length l

/-- Replace every occurrence of one character by a string:
`replace(/c/g, "repl")`. -/
def replaceCharStr (target : Char) (repl : List Char) : List Char → List Char
  | [] => []
  | c :: rest =>
    if c = target then repl ++ replaceCharStr target repl rest
    else c :: replaceCharStr target repl rest

/-- The three escapes of the code-macro branch (lines 295, 761):
`replace(/&/g,'&amp;').replace(/</g,'&lt;').replace(/>/g,'&gt;')`. -/
def escapeHtmlL (l : List Char) : List Char :=
  replaceCharStr '>' "&gt;".data
    (replaceCharStr '<' "&lt;".data
      (replaceCharStr '&' "&amp;".data l))

/-- HTML escaping of the code text as a string. -/
def escapeHtml (s : String) : String :=
  String.mk (escapeHtmlL s.data)

/-- The character-wise description of `escapeHtmlL`, for the statement that
every `&`, `<` and `>` of the code text is escaped. -/
def escChar (c : Char) : List Char :=
  if c = '&' then "&amp;".data
  else if c = '<' then "&lt;".data
  else if c = '>' then "&gt;".data
  else [c]

/-- The language parameter extraction of the code-macro branch (lines 288-289):
`langMatch ? langMatch[1].trim() : ''`. -/
def extractLanguage (innerContent : String) : String :=
  match findParamMatch "language".data innerContent.data with
  | some l => String.mk (jsTrim l)
  | none => ""

/-- The body extraction of the code-macro branch (lines 291-292):
`bodyMatch ? bodyMatch[1] : ''`. -/
def extractPlainTextBody (innerContent : String) : String :=
  match findPlainTextBody innerContent.data with
  | some b => String.mk b
  | none => ""

/-- The replacement emitted for a `code` structured macro (lines 287-298):
language extraction, body extraction, CDATA unwrap, HTML escape, and the
`<pre><code class="language-...">` block. -/
def codeMacroReplacement (innerContent : String) : String :=
  let lang := extractLanguage innerContent
  let code := cdataStripL (extractPlainTextBody innerContent).data
  String.mk ("\n<pre><code class=\"language-".data ++ lang.data ++ "\">".data
    ++ escapeHtmlL code ++ "</code></pre>\n".data)

/-- The class `[A-Z0-9]` under the `/i` flag: ASCII letters and digits. -/
def isAlnumCI (c : Char) : Bool :=
  ('A' ≤ c ∧ c ≤ 'Z') ∨ ('a' ≤ c ∧ c ≤ 'z') ∨ ('0' ≤ c ∧ c ≤ '9')

/-- A decimal digit (`\d`). -/
def isDigitChar (c : Char) : Bool := '0' ≤ c ∧ c ≤ '9'

/-- Split off the greedy leading run of characters satisfying `p`. -/
def takeRun (p : Char → Bool) : List Char → List Char × List Char
  | [] => ([], [])
  | c :: rest =>
    if p c then
      let (run, rest2) := takeRun p rest
      (c :: run, rest2)
    else ([], c :: rest)

/-- The pattern `[A-Z0-9]+-\d+` (with `/i`) anchored at the head of the text.
The greedy `[A-Z0-9]+` never needs to backtrack: `-` is outside the class, so
the only viable split takes the whole run. -/
def keyTokenAt (l : List Char) : Option (List Char) :=
  match takeRun isAlnumCI l with
  | ([], _) => none
  | (run, rest) =>
    match rest with
    | '-' :: rest2 =>
      match takeRun isDigitChar rest2 with
      | ([], _) => none
      | (ds, _) => some (run ++ '-' :: ds)
    | _ => none

/-- Leftmost-first search for `[A-Z0-9]+-\d+/i`: the body-scan fallback of the
jira branch (lines 260, 726). -/
def findKeyToken : List Char → Option (List Char)
  | [] => none
  | c :: rest =>
    match keyTokenAt (c :: rest) with
    | some k => some k
    | none => findKeyToken rest

/-- The pattern `(?:issuekey|key)\s*[=in]\s*["']?([A-Z0-9]+-\d+)["']?` (with `/i`)
anchored at the head of the text, returning the captured key.  `[=in]` is a
one-character class; the whitespace runs and the optional quote are consumed
greedily, which the disjoint following character classes make deterministic. -/
def jqlKeyAt (l : List Char) : Option (List Char) :=
  let afterWord :=
    if startsWithCI "issuekey".data l then some (l.drop 8)
    else if startsWithCI "key".data l then some (l.drop 3)
    else none
  match afterWord with
  | none => none
  | some l1 =>
    match l1.dropWhile isJsSpace with
    | [] => none
    | c :: l3 =>
      if c = '=' ∨ c.toLower = 'i' ∨ c.toLower = 'n' then
        let l4 := l3.dropWhile isJsSpace
        let l5 := match l4 with
          | q :: rest => if isQuote q then rest else l4
          | [] => l4
        keyTokenAt l5
      else none

/-- Leftmost-first search for the embedded-key pattern inside a jql parameter
value (lines 255, 721). -/
def findJqlKey : List Char → Option (List Char)
  | [] => none
  | c :: rest =>
    match jqlKeyAt (c :: rest) with
    | some k => some k
    | none => findJqlKey rest

/-- JS `toUpperCase()` on the ASCII key token. -/
def jsToUpper (l : List Char) : List Char := l.map Char.toUpper

/-- `issueKey.replace(/[^A-Z0-9-]/gi, '')` (lines 265, 731). -/
def cleanIssueKey (l : List Char) : List Char :=
  l.filter (fun c => isAlnumCI c || c = '-')

/-- The three-tier issue-key extraction of the jira branch (lines 248-262):
explicit `key` parameter, else a key pattern parsed from the `jql` parameter
(skipped when the captured jql text is empty, the JS falsy check), else any
`[A-Z0-9]+-\d+` token in the macro body, uppercased. -/
def jiraIssueKey (innerContent : String) : List Char :=
  let k1 :=
    match findParamMatch "key".data innerContent.data with
    | some k => jsTrim k
    | none => []
  let k2 :=
    if k1.isEmpty then
      match findParamMatch "jql".data innerContent.data with
      | some jql =>
        if jql.isEmpty then []
        else
          match findJqlKey jql with
          | some k => jsTrim k
          | none => []
      | none => []
    else k1
  if k2.isEmpty then
    match findKeyToken innerContent.data with
    | some k => jsToUpper k
    | none => []
  else k2

/-- The replacement emitted for a `jira`/`jiraissues` structured macro (lines
247-269): a hyperlink to the fixed issue-tracker base URL with the cleaned key,
or the visible failure marker when no key was extracted by any tier. -/
def jiraMacroReplacement (innerContent : String) : String :=
  let issueKey := jiraIssueKey innerContent
  if issueKey.isEmpty then "[Jira 链接解析失败]"
  else
    let ik := cleanIssueKey issueKey
    String.mk ("<a href=\"https://jira.ykeey.cn/browse/".data ++ ik
      ++ "\">".data ++ ik ++ "</a>".data)

/- ===================== concrete instances used by the witnesses ===================== -/

/-- A concrete store for the C1 witness. -/
def pluginDataEx : PluginData :=
  { syncState := [("1", { pageId := "1", localPath := "Conf/A.md", version := 3, lastUpdated := 77 })],
    lastGlobalSyncTime := 50, syncedRootIds := ["100"] }

/-- Concrete ancestors and pages for the C3 witness: root "100", parent page
"101" under it, child "102" under both. -/
def ancestorRoot : ConfluenceAncestor :=
  { id := "100", type := "page", status := "current", title := "Space Home" }

/-- The parent-page ancestor entry of the concrete batch. -/
def ancestorParent : ConfluenceAncestor :=
  { id := "101", type := "page", status := "current", title := "Parent Page" }

/-- The parent page of the concrete batch (its id appears in page102's chain). -/
def page101 : ConfluencePage :=
  { id := "101", title := "Parent Page", version := 2, ancestors := [ancestorRoot],
    body := "<p>parent</p>" }

/-- The leaf page of the concrete batch. -/
def page102 : ConfluencePage :=
  { id := "102", title := "Child: Page", version := 1,
    ancestors := [ancestorRoot, ancestorParent], body := "<p>child</p>" }

/-- A degenerate response sequence for the C4 witness: the endpoint always
answers with an empty page. -/
def emptyFetch : Nat → CQLSearchResult := fun start =>
  { results := [], size := 0, start := start, limit := 25, totalSize := 0 }

/-- A concrete code macro body: language parameter "xml" and a CDATA-wrapped
script tag. -/
def codeInnerEx : String :=
  "<ac:parameter ac:name=\"language\">xml</ac:parameter><ac:plain-text-body><![CDATA[<script>alert(1)</script>]]></ac:plain-text-body>"

/-- A concrete code macro body with no language parameter. -/
def codeInnerNoLang : String :=
  "<ac:plain-text-body><![CDATA[print(\"hi\")]]></ac:plain-text-body>"

/-- A concrete jira macro body with only a jql parameter embedding PROJ-123. -/
def jqlInnerEx : String :=
  "<ac:parameter ac:name=\"jql\">key = PROJ-123 ORDER BY created</ac:parameter>"

/-- A concrete jira macro body with an explicit key parameter. -/
def keyInnerEx : String :=
  "<ac:parameter ac:name=\"key\">ABC-7</ac:parameter>"

/-- A concrete jira macro body with no key or jql parameter but a key-shaped
token in the body. -/
def fallbackInnerEx : String :=
  "<ac:parameter ac:name=\"server\">Jira</ac:parameter><p>See abc-42 for details</p>"

/-- A concrete jira macro body with no extractable key by any tier. -/
def noKeyInnerEx : String := "<p>no issue reference</p>"

/-- A page behaviour that creates its file successfully. -/
def behaviorCreateEx : PageBehavior :=
  { hasPath := true, needs := true, folder := Except.ok (), attachSize := 0,
    listing := Except.ok [], write := Except.ok true }

/-- A page behaviour whose transform-and-write step throws. -/
def behaviorFailEx : PageBehavior :=
  { hasPath := true, needs := true, folder := Except.ok (), attachSize := -1,
    listing := Except.error "net", write := Except.error "boom" }

/-- The concrete two-page batch: one create, one failing page. -/
def pullBatchEx : List (ConfluencePage × PageBehavior) :=
  [(page101, behaviorCreateEx), (page102, behaviorFailEx)]

/- ===================== helper lemmas ===================== -/


/-- Looking a page up after mapping all timestamps finds the same record with
only its `lastUpdated` field mapped. -/
theorem getPageState_mapTimestamps (f : Nat → Nat) (d : PluginData) (pageId : String) :
    getPageState (mapTimestamps f d) pageId =
      (getPageState d pageId).map (fun st => { st with lastUpdated := f st.lastUpdated }) := by
  obtain ⟨l, t, roots⟩ := d
  induction l with
  | nil => rfl
  | cons e rest ih =>
    by_cases h : e.1 = pageId
    · simp [getPageState, mapTimestamps, List.find?, h]
    · have h2 := ih
      simp only [getPageState, mapTimestamps, List.map_cons, List.find?, h,
        decide_eq_true_eq, decide_eq_false_iff_not, not_false_eq_true] at h2 ⊢
      simpa [h] using h2

/- ===================== C1 ===================== -/

/-- C1: for every page id and remote version, needsSync is true iff no record
exists or the remote version is strictly greater than the stored record's
version; with an existing record an equal or lower remote version yields false;
and the decision is unchanged under any change of the stored timestamps. -/
theorem needsSync_version_authoritative (d : PluginData) (pageId : String) (remoteVersion : Nat) :
    (needsSync d pageId remoteVersion = true ↔
      getPageState d pageId = none ∨
      ∃ st, getPageState d pageId = some st ∧ st.version < remoteVersion) ∧
    (∀ st, getPageState d pageId = some st → remoteVersion ≤ st.version →
      needsSync d pageId remoteVersion = false) ∧
    (∀ f, needsSync (mapTimestamps f d) pageId remoteVersion = needsSync d pageId remoteVersion) := by
  refine ⟨?_, ?_, ?_⟩
  · unfold needsSync
    cases h : getPageState d pageId with
    | none => simp [h]
    | some st => simp [h, Nat.lt_iff_add_one_le]
  · intro st hst hle
    unfold needsSync
    rw [hst]
    simpa using Nat.not_lt.mpr hle
  · intro f
    unfold needsSync
    rw [getPageState_mapTimestamps]
    cases getPageState d pageId <;> rfl

/-- C1 witness: on a concrete store holding version 3 for page "1", an equal
remote version does not trigger a resync. -/
theorem needsSync_version_authoritative_witness : needsSync pluginDataEx "1" 3 = false :=
  (needsSync_version_authoritative pluginDataEx "1" 3).2.1
    { pageId := "1", localPath := "Conf/A.md", version := 3, lastUpdated := 77 }
    (by decide) (by decide)

/- ===================== C9 ===================== -/

/-- C9: after clearAllStates the store holds no per-document record, an empty
synced-root set, and a zero watermark, whatever the prior state was. -/
theorem clearAllStates_resets_store (d : PluginData) (pageId : String) :
    getPageState (clearAllStates d) pageId = none ∧
    (clearAllStates d).syncState = [] ∧
    getSyncedRootIds (clearAllStates d) = [] ∧
    (clearAllStates d).lastGlobalSyncTime = 0 := by
  exact ⟨rfl, rfl, rfl, rfl⟩

/- ===================== C8 ===================== -/

/-- C8: convert is total for every behaviour of the structural converter: a
throw makes it return the blunt tag-strip of the input instead of propagating,
a normal return is passed through; concretely, a throwing converter on a small
document yields the tag-stripped text. -/
theorem convert_never_throws (turndown : String → Except String String) (html : String) :
    ((∃ md, turndown html = Except.ok md ∧ convert turndown html = md) ∨
     (∃ e, turndown html = Except.error e ∧ convert turndown html = stripTags html)) ∧
    convert (fun _ => Except.error "boom") "<p>hello <b>world</b></p>" = "hello world" := by
  constructor
  · unfold convert
    cases h : turndown html with
    | ok md => exact Or.inl ⟨md, rfl, rfl⟩
    | error e => exact Or.inr ⟨e, rfl, rfl⟩
  · decide

/- ===================== C10 ===================== -/

/-- The attachment fold counts exactly the successes, whatever the accumulator. -/
theorem attachments_fold_counts (atts : List AttachmentRun) (n : Nat) :
    atts.foldl
        (fun downloadedCount a =>
          match a.download with
          | .error _ => downloadedCount
          | .ok _ =>
            match a.write with
            | .error _ => downloadedCount
            | .ok _ => downloadedCount + 1)
        n = n + atts.countP attachmentSucceeds := by
  induction atts generalizing n with
  | nil => simp
  | cons a rest ih =>
    obtain ⟨t, dl, wr⟩ := a
    simp only [List.foldl_cons, List.countP_cons, ih, attachmentSucceeds, exceptOk]
    cases dl <;> cases wr <;> simp <;> omega

/-- C10: syncAttachments returns 0 when listing throws; otherwise it returns
exactly the number of attachments whose download and write both succeed (so a
failed attachment is skipped while the rest are still counted); and the
attachment outcomes of a page never change the error list or the success flag
produced by syncOnePage. -/
theorem syncAttachments_isolated :
    (∀ e, syncAttachments (Except.error e) = 0) ∧
    (∀ atts, syncAttachments (Except.ok atts) = atts.countP attachmentSucceeds) ∧
    (∀ r page b listing size,
      (syncOnePage r page { b with listing := listing, attachSize := size }).errors
        = (syncOnePage r page b).errors ∧
      (syncOnePage r page { b with listing := listing, attachSize := size }).success
        = (syncOnePage r page b).success) := by
  refine ⟨fun e => rfl, ?_, ?_⟩
  · intro atts
    unfold syncAttachments
    by_cases h : atts.length = 0
    · rw [List.length_eq_zero] at h
      simp [h]
    · simp only [h, if_false]
      simpa using attachments_fold_counts atts 0
  · intro r page b listing size
    obtain ⟨hasPath, needs, folder, attachSize0, listing0, write0⟩ := b
    cases hasPath <;> cases needs <;> rcases folder with fe | fu <;> rcases write0 with we | wb
    all_goals try exact ⟨rfl, rfl⟩
    all_goals cases wb <;> exact ⟨rfl, rfl⟩

/- ===================== C2 ===================== -/

/-- syncOnePage appends exactly the page's contributed error, if any. -/
theorem syncOnePage_errors (r : SyncResult) (page : ConfluencePage) (b : PageBehavior) :
    (syncOnePage r page b).errors = r.errors ++ (pageErrorOf page b).toList := by
  obtain ⟨hasPath, needs, folder, attachSize0, listing0, write0⟩ := b
  cases hasPath <;> cases needs <;> rcases folder with fe | fu <;> rcases write0 with we | wb <;>
    try simp [syncOnePage, pageErrorOf]
  all_goals cases wb <;> simp [syncOnePage, pageErrorOf]

/-- syncOnePage increments the created counter exactly for a successful create. -/
theorem syncOnePage_created (r : SyncResult) (page : ConfluencePage) (b : PageBehavior) :
    (syncOnePage r page b).pagesCreated
      = r.pagesCreated + (if pageCreated b then 1 else 0) := by
  obtain ⟨hasPath, needs, folder, attachSize0, listing0, write0⟩ := b
  cases hasPath <;> cases needs <;> rcases folder with fe | fu <;> rcases write0 with we | wb <;>
    try simp [syncOnePage, pageCreated, exceptOk]
  all_goals cases wb <;> simp [syncOnePage, pageCreated, exceptOk]

/-- syncOnePage increments the updated counter exactly for a successful update. -/
theorem syncOnePage_updated (r : SyncResult) (page : ConfluencePage) (b : PageBehavior) :
    (syncOnePage r page b).pagesUpdated
      = r.pagesUpdated + (if pageUpdated b then 1 else 0) := by
  obtain ⟨hasPath, needs, folder, attachSize0, listing0, write0⟩ := b
  cases hasPath <;> cases needs <;> rcases folder with fe | fu <;> rcases write0 with we | wb <;>
    try simp [syncOnePage, pageUpdated, exceptOk]
  all_goals cases wb <;> simp [syncOnePage, pageUpdated, exceptOk]

/-- syncOnePage increments the skipped counter exactly for a needsSync skip. -/
theorem syncOnePage_skipped (r : SyncResult) (page : ConfluencePage) (b : PageBehavior) :
    (syncOnePage r page b).pagesSkipped
      = r.pagesSkipped + (if pageSkipped b then 1 else 0) := by
  obtain ⟨hasPath, needs, folder, attachSize0, listing0, write0⟩ := b
  cases hasPath <;> cases needs <;> rcases folder with fe | fu <;> rcases write0 with we | wb <;>
    try simp [syncOnePage, pageSkipped]
  all_goals cases wb <;> simp [syncOnePage, pageSkipped]

/-- syncOnePage never writes the success flag. -/
theorem syncOnePage_success (r : SyncResult) (page : ConfluencePage) (b : PageBehavior) :
    (syncOnePage r page b).success = r.success := by
  obtain ⟨hasPath, needs, folder, attachSize0, listing0, write0⟩ := b
  cases hasPath <;> cases needs <;> rcases folder with fe | fu <;> rcases write0 with we | wb <;>
    try rfl
  all_goals cases wb <;> rfl

/-- The worker fold over the page queue, with a general starting result. -/
theorem pull_fold (pages : List (ConfluencePage × PageBehavior)) (r : SyncResult) :
    (pages.foldl (fun acc pb => syncOnePage acc pb.1 pb.2) r).errors
        = r.errors ++ pages.filterMap (fun pb => pageErrorOf pb.1 pb.2) ∧
    (pages.foldl (fun acc pb => syncOnePage acc pb.1 pb.2) r).pagesCreated
        = r.pagesCreated + pages.countP (fun pb => pageCreated pb.2) ∧
    (pages.foldl (fun acc pb => syncOnePage acc pb.1 pb.2) r).pagesUpdated
        = r.pagesUpdated + pages.countP (fun pb => pageUpdated pb.2) ∧
    (pages.foldl (fun acc pb => syncOnePage acc pb.1 pb.2) r).pagesSkipped
        = r.pagesSkipped + pages.countP (fun pb => pageSkipped pb.2) ∧
    (pages.foldl (fun acc pb => syncOnePage acc pb.1 pb.2) r).success = r.success := by
  induction pages generalizing r with
  | nil => simp
  | cons pb rest ih =>
    obtain ⟨he, hc, hu, hs, hok⟩ := ih (syncOnePage r pb.1 pb.2)
    simp only [List.foldl_cons, List.filterMap_cons, List.countP_cons]
    refine ⟨?_, ?_, ?_, ?_, ?_⟩
    · rw [he, syncOnePage_errors]
      cases h : pageErrorOf pb.1 pb.2 <;> simp [h]
    · rw [hc, syncOnePage_created]
      by_cases h : pageCreated pb.2 <;> simp [h] <;> omega
    · rw [hu, syncOnePage_updated]
      by_cases h : pageUpdated pb.2 <;> simp [h] <;> omega
    · rw [hs, syncOnePage_skipped]
      by_cases h : pageSkipped pb.2 <;> simp [h] <;> omega
    · rw [hok, syncOnePage_success]

/-- C2: in a batch pass, the final error list is exactly the errors of the
failing pages (each failing page's error is appended, every other page is still
processed), the created/updated/skipped counters count exactly the pages with
that outcome even when other pages fail, and the pass's success flag is true
iff the error list is empty. -/
theorem pullFromConfluence_isolates_failures (pages : List (ConfluencePage × PageBehavior)) :
    (pullBatchPages pages).errors = pages.filterMap (fun pb => pageErrorOf pb.1 pb.2) ∧
    (pullBatchPages pages).pagesCreated = pages.countP (fun pb => pageCreated pb.2) ∧
    (pullBatchPages pages).pagesUpdated = pages.countP (fun pb => pageUpdated pb.2) ∧
    (pullBatchPages pages).pagesSkipped = pages.countP (fun pb => pageSkipped pb.2) ∧
    ((pullBatchPages pages).success = true ↔ (pullBatchPages pages).errors = []) := by
  obtain ⟨he, hc, hu, hs, _⟩ := pull_fold pages emptySyncResult
  unfold pullBatchPages
  simp only [emptySyncResult] at he hc hu hs
  refine ⟨by simpa using he, by simpa using hc, by simpa using hu, by simpa using hs, ?_⟩
  simp only [he]
  simp [List.length_eq_zero]

/- ===================== C5 ===================== -/

/-- dropWhile is the identity on a list none of whose elements satisfy the
predicate. -/
theorem dropWhile_eq_self_of (p : Char → Bool) (l : List Char)
    (h : ∀ c ∈ l, p c = false) : l.dropWhile p = l := by
  cases l with
  | nil => rfl
  | cons c rest => simp [List.dropWhile_cons, h c (List.mem_cons_self c rest)]

/-- collapseSpacesAux is the identity on a whitespace-free list. -/
theorem collapseSpacesAux_eq_self_of (l : List Char)
    (h : ∀ c ∈ l, isJsSpace c = false) : collapseSpacesAux false l = l := by
  induction l with
  | nil => rfl
  | cons c rest ih =>
    simp only [collapseSpacesAux, h c (List.mem_cons_self c rest), Bool.false_eq_true, if_false]
    rw [ih (fun d hd => h d (List.mem_cons_of_mem c hd))]

/-- jsTrim never lengthens a list. -/
theorem jsTrim_length_le (l : List Char) : (jsTrim l).length ≤ l.length := by
  unfold jsTrim dropTrailingSpaces dropLeadingSpaces
  calc ((l.dropWhile isJsSpace).reverse.dropWhile isJsSpace).reverse.length
      = ((l.dropWhile isJsSpace).reverse.dropWhile isJsSpace).length := List.length_reverse _
    _ ≤ (l.dropWhile isJsSpace).reverse.length :=
        List.IsSuffix.length_le (List.dropWhile_suffix isJsSpace)
    _ = (l.dropWhile isJsSpace).length := List.length_reverse _
    _ ≤ l.length := List.IsSuffix.length_le (List.dropWhile_suffix isJsSpace)

/-- Mapping replaceIllegalChar over a list with no reserved character is the
identity. -/
theorem map_replaceIllegalChar_eq_self (l : List Char)
    (h : ∀ c ∈ l, isIllegalFileChar c = false) : l.map replaceIllegalChar = l := by
  induction l with
  | nil => rfl
  | cons c rest ih =>
    simp only [List.map_cons]
    rw [ih (fun d hd => h d (List.mem_cons_of_mem c hd))]
    simp [replaceIllegalChar, h c (List.mem_cons_self c rest)]

/-- C5: sanitizeFileName replaces each reserved character with an underscore
and no other (never a `.`), trims and collapses whitespace, truncates to 200
characters (a 250-character plain name comes out as exactly 200 characters),
substitutes the fixed placeholder "untitled" for an all-whitespace name, never
exceeds 200 characters, and leaves a short name free of reserved characters and
whitespace (dots included) unchanged. -/
theorem sanitizeFileName_spec :
    sanitizeFileName "Report: Q1/Q2" = "Report_ Q1_Q2" ∧
    sanitizeFileName "   " = "untitled" ∧
    sanitizeFileName (String.mk (List.replicate 250 'a')) = String.mk (List.replicate 200 'a') ∧
    sanitizeFileName "  a \t  b  " = "a b" ∧
    (∀ c, isIllegalFileChar c = true → replaceIllegalChar c = '_') ∧
    (∀ c, isIllegalFileChar c = false → replaceIllegalChar c = c) ∧
    replaceIllegalChar '.' = '.' ∧ isJsSpace '.' = false ∧
    (∀ s : String, (sanitizeFileName s).length ≤ 200) ∧
    (∀ s : String, s.data ≠ [] → s.data.length ≤ 200 →
      (∀ c ∈ s.data, isIllegalFileChar c = false ∧ isJsSpace c = false) →
      sanitizeFileName s = s) := by
  refine ⟨by decide, by decide, by decide, by decide,
    fun c hc => by simp [replaceIllegalChar, hc],
    fun c hc => by simp [replaceIllegalChar, hc],
    by decide, by decide, ?_, ?_⟩
  · intro s
    show (if (jsTrim ((collapseSpaces (dropTrailingSpaces (dropLeadingSpaces
            (s.data.map replaceIllegalChar)))).take 200)).isEmpty = true
          then ("untitled" : String)
          else String.mk (jsTrim ((collapseSpaces (dropTrailingSpaces (dropLeadingSpaces
            (s.data.map replaceIllegalChar)))).take 200))).length ≤ 200
    split
    · decide
    · show (jsTrim ((collapseSpaces (dropTrailingSpaces (dropLeadingSpaces
            (s.data.map replaceIllegalChar)))).take 200)).length ≤ 200
      calc (jsTrim ((collapseSpaces (dropTrailingSpaces (dropLeadingSpaces
              (s.data.map replaceIllegalChar)))).take 200)).length
          ≤ ((collapseSpaces (dropTrailingSpaces (dropLeadingSpaces
              (s.data.map replaceIllegalChar)))).take 200).length := jsTrim_length_le _
        _ ≤ 200 := by
            rw [List.length_take]
            exact Nat.min_le_left _ _
  · intro s hne hlen h
    have hmap : s.data.map replaceIllegalChar = s.data :=
      map_replaceIllegalChar_eq_self s.data (fun c hc => (h c hc).1)
    have hnospace : ∀ c ∈ s.data, isJsSpace c = false := fun c hc => (h c hc).2
    have hlead : dropLeadingSpaces s.data = s.data :=
      dropWhile_eq_self_of isJsSpace s.data hnospace
    have htrail : dropTrailingSpaces s.data = s.data := by
      unfold dropTrailingSpaces
      rw [dropWhile_eq_self_of isJsSpace s.data.reverse
        (fun c hc => hnospace c (List.mem_reverse.mp hc))]
      exact List.reverse_reverse _
    have hcoll : collapseSpaces s.data = s.data :=
      collapseSpacesAux_eq_self_of s.data hnospace
    have htake : s.data.take 200 = s.data := List.take_of_length_le hlen
    have htrim : jsTrim s.data = s.data := by
      unfold jsTrim
      rw [hlead, htrail]
    have key : jsTrim ((collapseSpaces (dropTrailingSpaces (dropLeadingSpaces
        (s.data.map replaceIllegalChar)))).take 200) = s.data := by
      rw [hmap, hlead, htrail, hcoll, htake, htrim]
    show (if (jsTrim ((collapseSpaces (dropTrailingSpaces (dropLeadingSpaces
            (s.data.map replaceIllegalChar)))).take 200)).isEmpty = true
          then ("untitled" : String)
          else String.mk (jsTrim ((collapseSpaces (dropTrailingSpaces (dropLeadingSpaces
            (s.data.map replaceIllegalChar)))).take 200))) = s
    rw [key]
    have hempty : s.data.isEmpty = false := by
      cases hd : s.data with
      | nil => exact absurd hd hne
      | cons a t => rfl
    rw [hempty]
    simp only [Bool.false_eq_true, if_false]

/-- C5 witness: a dot-bearing short clean name survives sanitization unchanged. -/
theorem sanitizeFileName_spec_witness : sanitizeFileName "notes.v2.md" = "notes.v2.md" :=
  sanitizeFileName_spec.2.2.2.2.2.2.2.2.2 "notes.v2.md" (by decide) (by decide) (by decide)

/- ===================== C3 ===================== -/

/-- Under the data-model invariant that a page never lists itself among its own
ancestors, the resolver's "parent" scan marks exactly the pages whose id
appears in some other batch page's ancestor chain. -/
theorem parentPageIds_mem_iff (pages : List ConfluencePage) (p : ConfluencePage)
    (hp : p ∈ pages)
    (hwf : ∀ q ∈ pages, q.id ∉ q.ancestors.map (fun a => a.id)) :
    ((parentPageIdsOf pages).contains p.id = true ↔
      ∃ q ∈ pages, q ≠ p ∧ p.id ∈ q.ancestors.map (fun a => a.id)) := by
  unfold parentPageIdsOf
  show List.elem _ _ = true ↔ _
  rw [List.elem_iff]
  simp only [List.mem_flatten, List.mem_map]
  constructor
  · rintro ⟨chain, ⟨q, hq, rfl⟩, hid⟩
    rw [List.mem_map] at hid
    refine ⟨q, hq, ?_, hid⟩
    rintro rfl
    exact hwf q hq (List.mem_map.mpr hid)
  · rintro ⟨q, hq, hne, hid⟩
    exact ⟨q.ancestors.map (fun a => a.id), ⟨q, hq, rfl⟩,
      List.mem_map.mpr hid⟩

/-- The resolver's base-path expression equals the claim's wording of it. -/
theorem basePath_eq_claim (syncFolder : String) (rootIds : List String)
    (page : ConfluencePage) :
    (if ((page.ancestors.filter (fun a => !(rootIds.contains a.id))).map
          (fun a => sanitizeFileName a.title)).length > 0
     then syncFolder ++ "/" ++ String.intercalate "/"
          ((page.ancestors.filter (fun a => !(rootIds.contains a.id))).map
            (fun a => sanitizeFileName a.title))
     else syncFolder) = claimBasePath syncFolder rootIds page := by
  unfold claimBasePath
  cases h : (page.ancestors.filter (fun a => !(rootIds.contains a.id))).map
      (fun a => sanitizeFileName a.title) with
  | nil => simp [h]
  | cons x xs => simp [h]

/-- C3: in a batch, a page whose id appears in some other page's ancestor chain
gets folder `<base>/<title>` and file `<folder>/<title>.md`, every other page
gets file `<base>/<title>.md` with no dedicated subfolder, where `<base>` is
the sync folder joined with the sanitized titles of the page's non-root
ancestors; and calculatePagePaths records exactly this per-page computation. -/
theorem calculatePagePaths_parent_folder_rule
    (syncFolder : String) (rootIds : List String) (pages : List ConfluencePage)
    (p : ConfluencePage) (hp : p ∈ pages)
    (hwf : ∀ q ∈ pages, q.id ∉ q.ancestors.map (fun a => a.id)) :
    ((∃ q ∈ pages, q ≠ p ∧ p.id ∈ q.ancestors.map (fun a => a.id)) →
      pagePathInfo syncFolder rootIds (parentPageIdsOf pages) p =
        { pageId := p.id, title := p.title,
          folderPath := claimBasePath syncFolder rootIds p ++ "/" ++ sanitizeFileName p.title,
          filePath := claimBasePath syncFolder rootIds p ++ "/" ++ sanitizeFileName p.title
            ++ "/" ++ sanitizeFileName p.title ++ ".md" }) ∧
    ((¬ ∃ q ∈ pages, q ≠ p ∧ p.id ∈ q.ancestors.map (fun a => a.id)) →
      pagePathInfo syncFolder rootIds (parentPageIdsOf pages) p =
        { pageId := p.id, title := p.title,
          folderPath := claimBasePath syncFolder rootIds p,
          filePath := claimBasePath syncFolder rootIds p ++ "/"
            ++ sanitizeFileName p.title ++ ".md" }) ∧
    (p.id, pagePathInfo syncFolder rootIds (parentPageIdsOf pages) p)
      ∈ calculatePagePaths syncFolder rootIds pages := by
  refine ⟨?_, ?_, ?_⟩
  · intro hex
    have hc : (parentPageIdsOf pages).contains p.id = true :=
      (parentPageIds_mem_iff pages p hp hwf).mpr hex
    simp only [pagePathInfo, normalizePath, hc, if_true]
    rw [basePath_eq_claim]
  · intro hnex
    have hc : (parentPageIdsOf pages).contains p.id = false := by
      cases hcc : (parentPageIdsOf pages).contains p.id with
      | false => rfl
      | true => exact absurd ((parentPageIds_mem_iff pages p hp hwf).mp hcc) hnex
    simp only [pagePathInfo, normalizePath, hc, Bool.false_eq_true, if_false]
    rw [basePath_eq_claim]
  · unfold calculatePagePaths
    exact List.mem_map.mpr ⟨p, hp, rfl⟩

/-- C3 witness: in the concrete two-page batch with root id "100", the parent
page gets its own same-named subfolder. -/
theorem calculatePagePaths_parent_folder_rule_witness :
    pagePathInfo "Conf" ["100"] (parentPageIdsOf [page101, page102]) page101 =
      { pageId := page101.id, title := page101.title,
        folderPath := claimBasePath "Conf" ["100"] page101 ++ "/" ++ sanitizeFileName page101.title,
        filePath := claimBasePath "Conf" ["100"] page101 ++ "/" ++ sanitizeFileName page101.title
          ++ "/" ++ sanitizeFileName page101.title ++ ".md" } :=
  (calculatePagePaths_parent_folder_rule "Conf" ["100"] [page101, page102] page101
      (by decide) (by decide)).1
    ⟨page102, by decide, by decide, by decide⟩

/- ===================== C4 ===================== -/

/-- Appending the next response to the accumulated pages. -/
theorem accumPages_succ (fetch : Nat → CQLSearchResult) (n : Nat) :
    accumPages fetch (n + 1) = accumPages fetch n ++ (fetch (25 * n)).results := by
  unfold accumPages
  rw [List.range_succ]
  simp

/-- While no stop condition has fired, every response was a full page of 25, so
the accumulated length is exactly 25 per response. -/
theorem accumPages_length_of_min (fetch : Nat → CQLSearchResult)
    (hwf : ∀ s, (fetch s).size = (fetch s).results.length) (n : Nat)
    (hmin : ∀ i, i < n → stopCond fetch i = false) :
    (accumPages fetch n).length = 25 * n := by
  induction n with
  | zero => rfl
  | succ n ih =>
    have hlen : (accumPages fetch n).length = 25 * n :=
      ih (fun i hi => hmin i (Nat.lt_succ_of_lt hi))
    have hs := hmin n (Nat.lt_succ_self n)
    unfold stopCond at hs
    simp only [Bool.or_eq_false_iff, bne_eq_false_iff_eq, decide_eq_false_iff_not,
      Nat.not_le] at hs
    obtain ⟨⟨hsize, htot⟩, h1000⟩ := hs
    rw [accumPages_succ, List.length_append, hlen, ← hwf (25 * n), hsize]
    ring

/-- Some response index at or below 39 fires the stop condition: otherwise all
of the first 40 responses are full pages and the 40th reaches the hard
ceiling. -/
theorem stop_exists (fetch : Nat → CQLSearchResult)
    (hwf : ∀ s, (fetch s).size = (fetch s).results.length) :
    ∃ i, i ≤ 39 ∧ stopCond fetch i = true := by
  by_cases h : ∀ i, i < 40 → stopCond fetch i = false
  · exfalso
    have hlen : (accumPages fetch 40).length = 25 * 40 :=
      accumPages_length_of_min fetch hwf 40 h
    have h39 := h 39 (by omega)
    unfold stopCond at h39
    simp only [Bool.or_eq_false_iff, bne_eq_false_iff_eq, decide_eq_false_iff_not,
      Nat.not_le, show (39 : Nat) + 1 = 40 from rfl] at h39
    omega
  · push_neg at h
    obtain ⟨i, hi, hne⟩ := h
    cases hb : stopCond fetch i with
    | false => exact absurd hb hne
    | true => exact ⟨i, by omega, hb⟩

/-- Given the first stopping index `n`, the loop started at response `k ≤ n`
with the pages accumulated so far returns the concatenation of the first `n+1`
responses, for any fuel above `n - k`. -/
theorem fetchAllLoop_reaches (fetch : Nat → CQLSearchResult) (n : Nat)
    (hstop : stopCond fetch n = true)
    (hmin : ∀ i, i < n → stopCond fetch i = false) :
    ∀ fuel k, k ≤ n → n - k < fuel →
      fetchAllLoop fetch fuel (25 * k) (accumPages fetch k)
        = some (accumPages fetch (n + 1)) := by
  intro fuel
  induction fuel with
  | zero => intro k hk hf; omega
  | succ fuel ih =>
    intro k hk hf
    have hacc : accumPages fetch k ++ (fetch (25 * k)).results = accumPages fetch (k + 1) :=
      (accumPages_succ fetch k).symm
    simp only [fetchAllLoop, hacc]
    by_cases hkeq : k = n
    · subst hkeq
      unfold stopCond at hstop
      simp only [Bool.or_eq_true, bne_iff_ne, decide_eq_true_eq] at hstop
      by_cases h1000 : (accumPages fetch (k + 1)).length ≥ 1000
      · simp [h1000]
      · have hmore : ((fetch (25 * k)).size == 25
            && decide ((accumPages fetch (k + 1)).length < (fetch (25 * k)).totalSize))
            = false := by
          rcases hstop with (hs | hs) | hs
          · simp [beq_eq_false_iff_ne.mpr hs]
          · simp [Nat.not_lt.mpr hs]
          · exact absurd hs h1000
        simp [h1000, hmore]
    · have hklt : k < n := Nat.lt_of_le_of_ne hk hkeq
      have hs := hmin k hklt
      unfold stopCond at hs
      simp only [Bool.or_eq_false_iff, bne_eq_false_iff_eq, decide_eq_false_iff_not,
        Nat.not_le] at hs
      obtain ⟨⟨hsize, htot⟩, h1000⟩ := hs
      have hnot1000 : ¬ (accumPages fetch (k + 1)).length ≥ 1000 := Nat.not_le.mpr h1000
      have hmore : ((fetch (25 * k)).size == 25
          && decide ((accumPages fetch (k + 1)).length < (fetch (25 * k)).totalSize)) = true := by
        simp [hsize, htot]
      rw [if_neg hnot1000, if_pos (by simpa using hmore)]
      have h25 : 25 * k + 25 = 25 * (k + 1) := by ring
      rw [h25]
      exact ih (k + 1) hklt (by omega)

/-- C4: for every well-formed response sequence (the reported size is the
number of returned results and never exceeds the page size), the pagination
loop terminates, returning exactly the responses up to the first index where a
page is short, the accumulated count reaches the reported total, or the
1000-document ceiling is reached — and the returned list never holds more than
1000 documents. -/
theorem fetchAllPages_pagination_bounded (fetch : Nat → CQLSearchResult)
    (hwf : ∀ s, (fetch s).size = (fetch s).results.length)
    (hlim : ∀ s, (fetch s).size ≤ 25) :
    ∃ n, stopCond fetch n = true ∧ (∀ i, i < n → stopCond fetch i = false) ∧
      fetchAllPagesByRootIds fetch = some (accumPages fetch (n + 1)) ∧
      (accumPages fetch (n + 1)).length ≤ 1000 := by
  obtain ⟨i, hi39, hstop_i⟩ := stop_exists fetch hwf
  have hex : ∃ m, stopCond fetch m = true := ⟨i, hstop_i⟩
  have hn_stop : stopCond fetch (Nat.find hex) = true := Nat.find_spec hex
  have hn_min : ∀ j, j < Nat.find hex → stopCond fetch j = false := by
    intro j hj
    cases hb : stopCond fetch j with
    | false => rfl
    | true => exact absurd hb (Nat.find_min hex hj)
  have hn_le : Nat.find hex ≤ 39 := Nat.le_trans (Nat.find_min' hex hstop_i) hi39
  refine ⟨Nat.find hex, hn_stop, hn_min, ?_, ?_⟩
  · have hrun := fetchAllLoop_reaches fetch (Nat.find hex) hn_stop hn_min 41 0
      (Nat.zero_le _) (by omega)
    simpa [fetchAllPagesByRootIds, accumPages] using hrun
  · have hlen_n : (accumPages fetch (Nat.find hex)).length = 25 * Nat.find hex :=
      accumPages_length_of_min fetch hwf (Nat.find hex) hn_min
    rw [accumPages_succ, List.length_append, hlen_n]
    have hr := hlim (25 * Nat.find hex)
    rw [hwf (25 * Nat.find hex)] at hr
    omega

/-- C4 witness: on the empty response sequence the loop stops at once and
returns at most 1000 documents. -/
theorem fetchAllPages_pagination_bounded_witness :
    ∃ n, stopCond emptyFetch n = true ∧ (∀ i, i < n → stopCond emptyFetch i = false) ∧
      fetchAllPagesByRootIds emptyFetch = some (accumPages emptyFetch (n + 1)) ∧
      (accumPages emptyFetch (n + 1)).length ≤ 1000 :=
  fetchAllPages_pagination_bounded emptyFetch (fun _ => rfl) (fun _ => Nat.zero_le 25)

/- ===================== C6 ===================== -/

/-- replaceCharStr distributes over list append. -/
theorem replaceCharStr_append (t : Char) (r l1 l2 : List Char) :
    replaceCharStr t r (l1 ++ l2) = replaceCharStr t r l1 ++ replaceCharStr t r l2 := by
  induction l1 with
  | nil => rfl
  | cons c rest ih =>
    simp only [List.cons_append, replaceCharStr]
    by_cases h : c = t <;> simp [h, ih]

/-- The three sequential escapes act character-wise. -/
theorem escapeHtmlL_cons (c : Char) (l : List Char) :
    escapeHtmlL (c :: l) = escChar c ++ escapeHtmlL l := by
  have hstep : replaceCharStr '&' "&amp;".data (c :: l)
      = (if c = '&' then "&amp;".data else [c]) ++ replaceCharStr '&' "&amp;".data l := by
    simp only [replaceCharStr]
    by_cases h : c = '&' <;> simp [h]
  unfold escapeHtmlL
  rw [hstep, replaceCharStr_append, replaceCharStr_append]
  congr 1
  by_cases h1 : c = '&'
  · subst h1
    rw [if_pos rfl]
    decide
  · rw [if_neg h1]
    by_cases h2 : c = '<'
    · subst h2
      decide
    · by_cases h3 : c = '>'
      · subst h3
        decide
      · simp [replaceCharStr, escChar, h1, h2, h3]

/-- escapeHtmlL escapes every character independently: it is the concatenation
of the per-character escapes (so every `&`, `<` and `>` of the code text is
escaped). -/
theorem escapeHtmlL_eq_flatten (l : List Char) :
    escapeHtmlL l = (l.map escChar).flatten := by
  induction l with
  | nil => rfl
  | cons c rest ih => rw [escapeHtmlL_cons, ih, List.map_cons, List.flatten_cons]

/-- The escaped code text contains no raw angle bracket at all. -/
theorem escapeHtmlL_no_angle (l : List Char) :
    (escapeHtmlL l).all (fun c => !(c == '<') && !(c == '>')) = true := by
  induction l with
  | nil => rfl
  | cons c rest ih =>
    rw [escapeHtmlL_cons, List.all_append]
    refine Bool.and_eq_true_iff.mpr ⟨?_, ih⟩
    by_cases h1 : c = '&'
    · subst h1; decide
    by_cases h2 : c = '<'
    · subst h2; decide
    by_cases h3 : c = '>'
    · subst h3; decide
    simp [escChar, h1, h2, h3]

/-- C6: the code-macro pre-scan extracts the language parameter and the
CDATA-wrapped body, HTML-escapes every `&`, `<`, `>` of the code text
(character-wise, leaving no raw angle bracket), and emits the language-tagged
code block; a body containing `<script>` comes out as `&lt;script&gt;` and the
live markup never appears in the replacement. -/
theorem codeMacro_escapes_html :
    extractLanguage codeInnerEx = "xml" ∧
    extractPlainTextBody codeInnerEx = "<![CDATA[<script>alert(1)</script>]]>" ∧
    String.mk (cdataStripL (extractPlainTextBody codeInnerEx).data)
      = "<script>alert(1)</script>" ∧
    escapeHtml "<script>" = "&lt;script&gt;" ∧
    codeMacroReplacement codeInnerEx
      = "\n<pre><code class=\"language-xml\">&lt;script&gt;alert(1)&lt;/script&gt;</code></pre>\n" ∧
    ("&lt;script&gt;".data <:+: (codeMacroReplacement codeInnerEx).data) ∧
    (¬ ("<script>".data <:+: (codeMacroReplacement codeInnerEx).data)) ∧
    codeMacroReplacement codeInnerNoLang
      = "\n<pre><code class=\"language-\">print(\"hi\")</code></pre>\n" ∧
    (∀ l, escapeHtmlL l = (l.map escChar).flatten) ∧
    (∀ l, (escapeHtmlL l).all (fun c => !(c == '<') && !(c == '>')) = true) ∧
    (∀ inner, codeMacroReplacement inner
      = String.mk ("\n<pre><code class=\"language-".data ++ (extractLanguage inner).data
          ++ "\">".data ++ escapeHtmlL (cdataStripL (extractPlainTextBody inner).data)
          ++ "</code></pre>\n".data)) := by
  refine ⟨by decide, by decide, by decide, by decide, by decide, by decide, by decide,
    by decide, escapeHtmlL_eq_flatten, escapeHtmlL_no_angle, fun inner => rfl⟩

/- ===================== C7 ===================== -/

/-- C7: the jira-macro extraction falls back from the key parameter to the jql
parameter to a body token scan; a macro with only a jql parameter containing
PROJ-123 yields a hyperlink containing PROJ-123; one with no extractable key
yields the visible failure marker; the replacement is never empty; and the
emission is exactly the fixed-base-URL hyperlink of the cleaned key whenever a
key was extracted. -/
theorem jiraMacro_three_tier_key :
    jiraMacroReplacement jqlInnerEx
      = "<a href=\"https://jira.ykeey.cn/browse/PROJ-123\">PROJ-123</a>" ∧
    ("PROJ-123".data <:+: (jiraMacroReplacement jqlInnerEx).data) ∧
    jiraMacroReplacement keyInnerEx
      = "<a href=\"https://jira.ykeey.cn/browse/ABC-7\">ABC-7</a>" ∧
    jiraMacroReplacement fallbackInnerEx
      = "<a href=\"https://jira.ykeey.cn/browse/ABC-42\">ABC-42</a>" ∧
    jiraMacroReplacement noKeyInnerEx = "[Jira 链接解析失败]" ∧
    (∀ inner, jiraIssueKey inner = [] →
      jiraMacroReplacement inner = "[Jira 链接解析失败]") ∧
    (∀ inner, jiraIssueKey inner ≠ [] →
      jiraMacroReplacement inner
        = String.mk ("<a href=\"https://jira.ykeey.cn/browse/".data
            ++ cleanIssueKey (jiraIssueKey inner) ++ "\">".data
            ++ cleanIssueKey (jiraIssueKey inner) ++ "</a>".data)) ∧
    (∀ inner, jiraMacroReplacement inner ≠ "") := by
  refine ⟨by decide, by decide, by decide, by decide, by decide, ?_, ?_, ?_⟩
  · intro inner h
    unfold jiraMacroReplacement
    simp [h]
  · intro inner h
    have hne : (jiraIssueKey inner).isEmpty = false := by
      cases hj : jiraIssueKey inner with
      | nil => exact absurd hj h
      | cons a t => rfl
    unfold jiraMacroReplacement
    simp [hne]
  · intro inner
    unfold jiraMacroReplacement
    cases hj : (jiraIssueKey inner).isEmpty with
    | true =>
      simp only [hj, if_true]
      decide
    | false =>
      simp only [hj, Bool.false_eq_true, if_false]
      intro hcontra
      have hdata := congrArg String.data hcontra
      simp at hdata

/-- C7 witness: a macro body with no key parameter, no jql parameter, and no
key-shaped token yields the failure marker through the general tier theorem. -/
theorem jiraMacro_three_tier_key_witness :
    jiraMacroReplacement "<p>nothing</p>" = "[Jira 链接解析失败]" :=
  jiraMacro_three_tier_key.2.2.2.2.2.1 "<p>nothing</p>" (by decide)

/- ===================== extra concrete instances ===================== -/

/-- C2 witness: the concrete partial-failure batch instantiates the batch-pass
theorem. -/
theorem pullFromConfluence_isolates_failures_witness :
    (pullBatchPages pullBatchEx).errors
        = pullBatchEx.filterMap (fun pb => pageErrorOf pb.1 pb.2) ∧
    ((pullBatchPages pullBatchEx).success = true ↔ (pullBatchPages pullBatchEx).errors = []) :=
  ⟨(pullFromConfluence_isolates_failures pullBatchEx).1,
    (pullFromConfluence_isolates_failures pullBatchEx).2.2.2.2⟩

/-- C6 witness: the script-tag escape instance extracted from the code-macro
theorem. -/
theorem codeMacro_escapes_html_witness : escapeHtml "<script>" = "&lt;script&gt;" :=
  codeMacro_escapes_html.2.2.2.1
